import Mathlib

/-!
Shallow embedding of the `ezo-ec-rs` driver crate (EC EZO chip command /
response engine) and proofs about its specification claims.

Source files embedded: `src/lib.rs` (command executor `CommandBuilder::run`
for `CommandOptions`, command builder), `src/response.rs` (response parsing),
`src/command.rs` (textual command parsing), `src/errors.rs` (error taxonomy).

Modelling conventions:
* Rust `&str` values are Lean `String`s (in Lean 4.14 a `String` wraps a
  `List Char`); byte indices into the all-ASCII fixed markers coincide with
  character indices, so `get(k..)` on a marker of length k is `data.drop k`.
* Rust `f64` parsing keeps the parsed numeric value as an exact rational
  (`FVal.num : ℚ`); `inf`/`nan` forms of the Rust grammar are separate
  constructors.  No arithmetic is ever performed on parsed readings in the
  source, so exact rationals are a faithful value model for the claims here.
* Fallible Rust functions returning `Result<T>` become `Except ErrorKind T`;
  functions that can panic (via `.unwrap()`) return `PResult` with an extra
  `panicked` outcome.
* The I2C transport is a script: `w : ℕ → Bool` gives the success of the
  i-th write attempt, `r : ℕ → Option (List ℕ)` gives the i-th read attempt
  (`none` = I/O error, `some buf` = the 399-byte buffer that was filled).
  Side effects (console prints, sleeps, bus operations) are recorded in an
  event trace.
-/

namespace EzoEc

/-! ## String splitting, mirroring Rust `str::split(',')` -/

/-- Split a character list at commas.  Mirrors Rust `str::split(',')`:
the result is never empty, and an input without commas yields a single
token (the whole input); an empty input yields one empty token. -/
def splitCommaChars : List Char → List (List Char)
  | [] => [[]]
  | c :: rest =>
    if c = ',' then [] :: splitCommaChars rest
    else
      match splitCommaChars rest with
      | t :: ts => (c :: t) :: ts
      | [] => [[c]]

/-- Comma-splitting on strings, mirroring Rust `str::split(',')`. -/
def splitComma (s : String) : List String :=
  (splitCommaChars s.data).map String.mk

/-! ## Rust numeric parsing models -/

/-- Leading decimal digits of a character list, returned together with the
rest of the list. -/
def takeDigits : List Char → List ℕ × List Char
  | [] => ([], [])
  | c :: rest =>
    if c.isDigit then
      let (ds, r) := takeDigits rest
      ((c.toNat - 48) :: ds, r)
    else ([], c :: rest)

/-- Value of a big-endian list of decimal digits. -/
def digitsVal (ds : List ℕ) : ℕ := ds.foldl (fun a d => 10 * a + d) 0

/-- Value model for a parsed Rust `f64`: an exact rational for finite
values, plus the infinity and NaN forms of the Rust grammar. -/
inductive FVal where
  | num : ℚ → FVal
  | inf : Bool → FVal
  | nan : FVal
deriving DecidableEq, Repr

/-- Power of a rational by a natural, by plain recursion (kept free of
type-class power operations so that closed terms fully evaluate). -/
def qpowNat (q : ℚ) : ℕ → ℚ
  | 0 => 1
  | n + 1 => q * qpowNat q n

/-- Power of a rational by an integer, by plain recursion. -/
def qpowInt (q : ℚ) : ℤ → ℚ
  | .ofNat n => qpowNat q n
  | .negSucc n => 1 / qpowNat q (n + 1)

/-- Assemble the rational `±(intDigits . fracDigits) · 10 ^ exp`. -/
def mkRat (neg : Bool) (ds fs : List ℕ) (e : ℤ) : ℚ :=
  let m : ℚ := (digitsVal ds : ℚ) + (digitsVal fs : ℚ) / qpowNat 10 fs.length
  let v := m * qpowInt 10 e
  if neg then -v else v

/-- Optional exponent suffix of the Rust float grammar:
empty input means exponent 0; otherwise the whole remaining input must be
`(e|E) [+|-] digits`. -/
def parseExpSuffix : List Char → Option ℤ
  | [] => some 0
  | c :: rest =>
    if c = 'e' ∨ c = 'E' then
      let (eneg, r2) : Bool × List Char :=
        match rest with
        | '+' :: r => (false, r)
        | '-' :: r => (true, r)
        | r => (false, r)
      let (es, r3) := takeDigits r2
      if es = [] ∨ r3 ≠ [] then none
      else some (if eneg then -(digitsVal es : ℤ) else (digitsVal es : ℤ))
    else none

/-- The decimal-number part of the Rust `f64` grammar (after the sign):
`digits [ "." [digits] ] [exp]` or `"." digits [exp]`. -/
def parseDecNumber (neg : Bool) (l : List Char) : Option FVal :=
  let (ds, r1) := takeDigits l
  match r1 with
  | '.' :: r2 =>
    let (fs, r3) := takeDigits r2
    if ds = [] ∧ fs = [] then none
    else
      match parseExpSuffix r3 with
      | some e => some (.num (mkRat neg ds fs e))
      | none => none
  | _ =>
    if ds = [] then none
    else
      match parseExpSuffix r1 with
      | some e => some (.num (mkRat neg ds [] e))
      | none => none

/-- Model of Rust `f64::from_str`: optional sign, then case-insensitive
`inf`/`infinity`/`nan` or a decimal number with optional exponent.
`none` models `Err(ParseFloatError)`. -/
def parseF64 (l : List Char) : Option FVal :=
  let (neg, l1) : Bool × List Char :=
    match l with
    | '+' :: r => (false, r)
    | '-' :: r => (true, r)
    | r => (false, r)
  let low := l1.map Char.toLower
  if low = "inf".data ∨ low = "infinity".data then some (.inf neg)
  else if low = "nan".data then some .nan
  else parseDecNumber neg l1

/-- Model of Rust `u16::from_str`: optional `+` sign, then decimal digits;
values ≥ 2^16 overflow to `Err`.  `none` models `Err(ParseIntError)`. -/
def parseU16 (l : List Char) : Option ℕ :=
  let l1 : List Char :=
    match l with
    | '+' :: r => r
    | r => r
  let (ds, r) := takeDigits l1
  if ds = [] ∨ r ≠ [] then none
  else
    let v := digitsVal ds
    if v < 65536 then some v else none

/-- ASCII uppercasing of a string; on the ASCII command alphabet this
coincides with Rust `str::to_uppercase`. -/
def toUpper (s : String) : String := String.mk (s.data.map Char.toUpper)

/-! ## Error taxonomy (`src/errors.rs`, `ErrorKind`) -/

/-- The closed error taxonomy of `src/errors.rs`. -/
inductive ErrorKind where
  | i2cRead
  | malformedResponse
  | commandParse
  | responseParse
  | pendingResponse
  | deviceErrorResponse
  | noDataExpectedResponse
deriving DecidableEq, Repr

/-! ## `src/response.rs`: `OutputStringStatus` -/

/-- On/off state of one output-string parameter. -/
inductive ParameterStatus where
  | on
  | off
deriving DecidableEq, Repr

/-- The 4-bit output-string configuration of the chip. -/
structure OutputStringStatus where
  electric_conductivity : ParameterStatus
  total_dissolved_solids : ParameterStatus
  salinity : ParameterStatus
  specific_gravity : ParameterStatus
deriving DecidableEq, Repr

namespace OutputStringStatus

/-- `OutputStringStatus::new()`: everything off. -/
def new : OutputStringStatus := ⟨.off, .off, .off, .off⟩

/-- First `split.next()` match of `OutputStringStatus::parse`:
`EC`, `TDS`, `S`, `SG` set the matching field, the literal `No output`
sets nothing, anything else is an error (`none`). -/
def stage1 (o : OutputStringStatus) (t : String) : Option OutputStringStatus :=
  if t = "EC" then some { o with electric_conductivity := .on }
  else if t = "TDS" then some { o with total_dissolved_solids := .on }
  else if t = "S" then some { o with salinity := .on }
  else if t = "SG" then some { o with specific_gravity := .on }
  else if t = "No output" then some o
  else none

/-- Second `split.next()` match: only `TDS`, `S`, `SG` are accepted. -/
def stage2 (o : OutputStringStatus) (t : String) : Option OutputStringStatus :=
  if t = "TDS" then some { o with total_dissolved_solids := .on }
  else if t = "S" then some { o with salinity := .on }
  else if t = "SG" then some { o with specific_gravity := .on }
  else none

/-- Third `split.next()` match: only `S`, `SG` are accepted. -/
def stage3 (o : OutputStringStatus) (t : String) : Option OutputStringStatus :=
  if t = "S" then some { o with salinity := .on }
  else if t = "SG" then some { o with specific_gravity := .on }
  else none

/-- Fourth `split.next()` match: only `SG` is accepted. -/
def stage4 (o : OutputStringStatus) (t : String) : Option OutputStringStatus :=
  if t = "SG" then some { o with specific_gravity := .on }
  else none

/-- The token-consuming body of `OutputStringStatus::parse`: four staged
matches on successive `split.next()` results (a missing token is accepted
at every stage), then a fifth `split.next()` must yield `None`. -/
def parseTokens (ts : List String) : Except ErrorKind OutputStringStatus :=
  match ts with
  | [] => .ok new
  | t1 :: r1 =>
    match stage1 new t1 with
    | none => .error .responseParse
    | some o1 =>
      match r1 with
      | [] => .ok o1
      | t2 :: r2 =>
        match stage2 o1 t2 with
        | none => .error .responseParse
        | some o2 =>
          match r2 with
          | [] => .ok o2
          | t3 :: r3 =>
            match stage3 o2 t3 with
            | none => .error .responseParse
            | some o3 =>
              match r3 with
              | [] => .ok o3
              | t4 :: r4 =>
                match stage4 o3 t4 with
                | none => .error .responseParse
                | some o4 =>
                  match r4 with
                  | [] => .ok o4
                  | _ => .error .responseParse

/-- `OutputStringStatus::parse`: requires the literal `?O,` marker, then
runs the staged token matches on the comma-split remainder. -/
def parse (response : String) : Except ErrorKind OutputStringStatus :=
  if "?O,".data.isPrefixOf response.data then
    parseTokens (splitComma (String.mk (response.data.drop 3)))
  else .error .responseParse

/-- `OutputStringStatus::to_string`: the enabled tokens joined by commas in
the order EC, TDS, S, SG, or the literal `No output` when none is enabled.
Note the emitted string does NOT carry the `?O,` marker. -/
def to_string (o : OutputStringStatus) : String :=
  let out : List String :=
    (if o.electric_conductivity = .on then ["EC"] else []) ++
    (if o.total_dissolved_solids = .on then ["TDS"] else []) ++
    (if o.salinity = .on then ["S"] else []) ++
    (if o.specific_gravity = .on then ["SG"] else [])
  match out with
  | [] => "No output"
  | _ => String.intercalate "," out

end OutputStringStatus

/-! ## `src/response.rs`: `ProbeReading` -/

/-- A probe reading with 0–4 numeric fields. -/
inductive ProbeReading where
  | None : ProbeReading
  | OneParameter : FVal → ProbeReading
  | TwoParameters : FVal → FVal → ProbeReading
  | ThreeParameters : FVal → FVal → FVal → ProbeReading
  | FourParameters : FVal → FVal → FVal → FVal → ProbeReading
deriving DecidableEq, Repr

namespace ProbeReading

/-- Number of numeric fields carried by a reading. -/
def arity : ProbeReading → ℕ
  | .None => 0
  | .OneParameter _ => 1
  | .TwoParameters _ _ => 2
  | .ThreeParameters _ _ _ => 3
  | .FourParameters _ _ _ _ => 4

/-- Token-consuming body of `ProbeReading::parse`: up to four successive
`split.next()` tokens are each parsed as `f64` (failure is a
`ResponseParse` error), an absent token closes the tuple at the current
arity, and a fifth token is an error. -/
def parseTokens (ts : List String) : Except ErrorKind ProbeReading :=
  match ts with
  | [] => .ok .None
  | t1 :: r1 =>
    match parseF64 t1.data with
    | none => .error .responseParse
    | some a =>
      match r1 with
      | [] => .ok (.OneParameter a)
      | t2 :: r2 =>
        match parseF64 t2.data with
        | none => .error .responseParse
        | some b =>
          match r2 with
          | [] => .ok (.TwoParameters a b)
          | t3 :: r3 =>
            match parseF64 t3.data with
            | none => .error .responseParse
            | some c =>
              match r3 with
              | [] => .ok (.ThreeParameters a b c)
              | t4 :: r4 =>
                match parseF64 t4.data with
                | none => .error .responseParse
                | some d =>
                  match r4 with
                  | [] => .ok (.FourParameters a b c d)
                  | _ => .error .responseParse

/-- `ProbeReading::parse`: no marker; a bare comma-split of the response. -/
def parse (response : String) : Except ErrorKind ProbeReading :=
  parseTokens (splitComma response)

end ProbeReading

/-! ## `src/command.rs`: textual command parsing (`FromStr`)

The Rust parsers uppercase the input, check the keyword marker, then split
the remainder on commas.  Numeric parameter fields are parsed with
`.unwrap()`, which panics on failure; the `panicked` outcome records this.
-/

/-- Outcome of a Rust function that may return `Ok`, return `Err`, or
panic (through `.unwrap()`). -/
inductive PResult (α : Type) where
  | ok : α → PResult α
  | err : ErrorKind → PResult α
  | panicked : PResult α
deriving DecidableEq, Repr

/-- `CAL,n` command carrying an `f64` calibration value. -/
structure CalibrationOnePoint where
  value : FVal
deriving DecidableEq, Repr

/-- `FromStr for CalibrationOnePoint`: uppercase, require the `CAL,`
marker, then `n.parse::<f64>().unwrap()` on the first field (a panic when
the field is not numeric) and reject a trailing second field. -/
def CalibrationOnePoint.from_str (s : String) : PResult CalibrationOnePoint :=
  let supper := toUpper s
  if "CAL,".data.isPrefixOf supper.data then
    match splitComma (String.mk (supper.data.drop 4)) with
    | [] => .err .commandParse
    | n :: rest =>
      match parseF64 n.data with
      | none => .panicked
      | some v =>
        match rest with
        | [] => .ok ⟨v⟩
        | _ => .err .commandParse
  else .err .commandParse

/-- `I2C,n` command carrying a `u16` device address. -/
structure DeviceAddress where
  address : ℕ
deriving DecidableEq, Repr

/-- `FromStr for DeviceAddress`: uppercase, require the `I2C,` marker,
then `n.parse::<u16>().unwrap()` (a panic on a non-numeric or
out-of-range field) and reject a trailing second field. -/
def DeviceAddress.from_str (s : String) : PResult DeviceAddress :=
  let supper := toUpper s
  if "I2C,".data.isPrefixOf supper.data then
    match splitComma (String.mk (supper.data.drop 4)) with
    | [] => .err .commandParse
    | n :: rest =>
      match parseU16 n.data with
      | none => .panicked
      | some v =>
        match rest with
        | [] => .ok ⟨v⟩
        | _ => .err .commandParse
  else .err .commandParse

/-- `T,t` command carrying an `f64` temperature. -/
structure TemperatureCompensation where
  value : FVal
deriving DecidableEq, Repr

/-- `FromStr for TemperatureCompensation`: uppercase, require the `T,`
marker, then `n.parse::<f64>().unwrap()` (a panic when the field is not
numeric) and reject a trailing second field. -/
def TemperatureCompensation.from_str (s : String) : PResult TemperatureCompensation :=
  let supper := toUpper s
  if "T,".data.isPrefixOf supper.data then
    match splitComma (String.mk (supper.data.drop 2)) with
    | [] => .err .commandParse
    | n :: rest =>
      match parseF64 n.data with
      | none => .panicked
      | some v =>
        match rest with
        | [] => .ok ⟨v⟩
        | _ => .err .commandParse
  else .err .commandParse

/-- `IMPORT,n` command carrying a calibration string.  The Rust type is a
plain public tuple struct `Import(String)`: nothing constrains the string
at construction time. -/
structure Import where
  value : String
deriving DecidableEq, Repr

/-- `Command::get_command_string` for `Import` (macro-expanded body
`format!("IMPORT,{}", cmd)`). -/
def Import.get_command_string (c : Import) : String :=
  "IMPORT," ++ c.value

/-- `FromStr for Import`: uppercase, require the `IMPORT,` marker, accept
the first field only under the guard `n.len() > 0 && n.len() < 13`
(byte length of the uppercased field), and reject a trailing field. -/
def Import.from_str (s : String) : PResult Import :=
  let supper := toUpper s
  if "IMPORT,".data.isPrefixOf supper.data then
    match splitComma (String.mk (supper.data.drop 7)) with
    | [] => .err .commandParse
    | n :: rest =>
      if 0 < n.utf8ByteSize ∧ n.utf8ByteSize < 13 then
        match rest with
        | [] => .ok ⟨n⟩
        | _ => .err .commandParse
      else .err .commandParse
  else .err .commandParse

/-! ## `src/lib.rs`: the command executor (`CommandBuilder::run`)

`run` writes the command bytes (retrying once after a 300 ms sleep),
sleeps the declared delay, and — when a response is expected — reads into
a 399-byte buffer (same single retry), then dispatches on the status byte
`data_buffer[0]`.  All console prints, sleeps and bus operations are
recorded in an event trace.
-/

/-- Allowed responses from I2C read interactions (`CommandResponse`). -/
inductive CommandResponse where
  | Ack
  | CalibrationState
  | CompensationValue
  | DeviceInformation
  | Export
  | ExportInfo
  | LedState
  | OutputState
  | ProtocolLockState
  | ProbeTypeState
  | Reading
  | Status
deriving DecidableEq, Repr

/-- Command-related parameters used to build I2C interactions
(`CommandOptions`). -/
structure CommandOptions where
  command : String
  delay : Option ℕ
  response : Option CommandResponse
deriving DecidableEq, Repr

/-- `CommandOptions::default()`. -/
def CommandOptions.default : CommandOptions := ⟨"", none, none⟩

/-- `CommandBuilder::set_command`. -/
def CommandOptions.set_command (o : CommandOptions) (s : String) : CommandOptions :=
  { o with command := s }

/-- `CommandBuilder::set_delay`. -/
def CommandOptions.set_delay (o : CommandOptions) (d : ℕ) : CommandOptions :=
  { o with delay := some d }

/-- `CommandBuilder::set_response`. -/
def CommandOptions.set_response (o : CommandOptions) (r : CommandResponse) : CommandOptions :=
  { o with response := some r }

/-- The options built for `ConductivityCommand::CalibrationState`
(`"Cal,?\0"`, 300 ms delay, expects a `CalibrationState` response). -/
def calibrationStateOptions : CommandOptions :=
  ((CommandOptions.default.set_command "Cal,?\x00").set_delay 300).set_response
    .CalibrationState

/-- Observable events of one `run` call. -/
inductive Ev where
  | println : String → Ev
  | write : Bool → Ev
  | sleepMs : ℕ → Ev
  | read : Bool → Ev
deriving DecidableEq, Repr

/-- Typed rendering of the `chain_err` failures `run` can return:
`Command could not be sent`, `Error reading from device`,
`Data is not readable`. -/
inductive RunErr where
  | commandNotSent
  | errorReading
  | dataNotReadable
deriving DecidableEq, Repr

/-- Write phase of `run`: try the write; on failure sleep 300 ms and try
exactly once more; a second failure aborts. -/
def writeStage (w : ℕ → Bool) : Except RunErr Unit × List Ev :=
  if w 0 then (.ok (), [.write true])
  else if w 1 then (.ok (), [.write false, .sleepMs 300, .write true])
  else (.error .commandNotSent, [.write false, .sleepMs 300, .write false])

/-- Delay phase of `run`: sleep the declared delay, when present. -/
def delayEvents : Option ℕ → List Ev
  | some ms => [.sleepMs ms]
  | none => []

/-- Read phase of `run`: try the read; on failure sleep 300 ms and try
exactly once more; a second failure aborts.  A successful read yields the
filled 399-byte buffer. -/
def readStage (r : ℕ → Option (List ℕ)) : Except RunErr (List ℕ) × List Ev :=
  match r 0 with
  | some buf => (.ok buf, [.read true])
  | none =>
    match r 1 with
    | some buf => (.ok buf, [.read false, .sleepMs 300, .read true])
    | none => (.error .errorReading, [.read false, .sleepMs 300, .read false])

/-- Standard UTF-8 validation/decoding of a byte list into code points
(RFC 3629: continuation-byte shapes, overlong and surrogate forms
rejected), modelling `String::from_utf8`.  `none` models `Err`. -/
def utf8Decode : List ℕ → Option (List ℕ)
  | [] => some []
  | b :: rest =>
    if b < 0x80 then
      match utf8Decode rest with
      | some cps => some (b :: cps)
      | none => none
    else if 0xC2 ≤ b ∧ b ≤ 0xDF then
      match rest with
      | b2 :: rest2 =>
        if 0x80 ≤ b2 ∧ b2 ≤ 0xBF then
          match utf8Decode rest2 with
          | some cps => some (((b - 0xC0) * 64 + (b2 - 0x80)) :: cps)
          | none => none
        else none
      | [] => none
    else if 0xE0 ≤ b ∧ b ≤ 0xEF then
      match rest with
      | b2 :: b3 :: rest2 =>
        let lo2 := if b = 0xE0 then 0xA0 else 0x80
        let hi2 := if b = 0xED then 0x9F else 0xBF
        if (lo2 ≤ b2 ∧ b2 ≤ hi2) ∧ (0x80 ≤ b3 ∧ b3 ≤ 0xBF) then
          match utf8Decode rest2 with
          | some cps =>
            some (((b - 0xE0) * 4096 + (b2 - 0x80) * 64 + (b3 - 0x80)) :: cps)
          | none => none
        else none
      | _ => none
    else if 0xF0 ≤ b ∧ b ≤ 0xF4 then
      match rest with
      | b2 :: b3 :: b4 :: rest2 =>
        let lo2 := if b = 0xF0 then 0x90 else 0x80
        let hi2 := if b = 0xF4 then 0x8F else 0xBF
        if (lo2 ≤ b2 ∧ b2 ≤ hi2) ∧ (0x80 ≤ b3 ∧ b3 ≤ 0xBF) ∧
            (0x80 ≤ b4 ∧ b4 ≤ 0xBF) then
          match utf8Decode rest2 with
          | some cps =>
            some (((b - 0xF0) * 262144 + (b2 - 0x80) * 4096 +
              (b3 - 0x80) * 64 + (b4 - 0x80)) :: cps)
          | none => none
        else none
      | _ => none
    else none

/-- Payload extraction of the status-1 branch of `run`, as the list of
character code points of the collected `String`.  A nul byte anywhere in
the buffer (`position(|&x| x == 0)`) selects the stripped-chars path over
`data_buffer[1..eol]` (each byte is masked with `& !0x80` and cast to
`char`); with no nul the remainder `data_buffer[1..]` goes through
`String::from_utf8` unmasked.  This branch only runs with status byte 1
at index 0, so the first nul — when present — is at index ≥ 1. -/
def extractData (buf : List ℕ) : Except RunErr (List ℕ) :=
  match buf.findIdx? (· = 0) with
  | some eol => .ok (((buf.take eol).drop 1).map (fun c => c &&& 127))
  | none =>
    match utf8Decode (buf.drop 1) with
    | some cps => .ok cps
    | none => .error .dataNotReadable

/-- String built from a list of character code points. -/
def natsToString (l : List ℕ) : String := String.mk (l.map Char.ofNat)

/-- Status-byte dispatch of `run` (`match data_buffer[0]`): the branches
for 255, 254, 2 and the catch-all only print a line; the branch for 1
extracts and prints the payload, failing only when extraction fails. -/
def statusStage (buf : List ℕ) : Except RunErr Unit × List Ev :=
  if buf.headD 0 = 255 then (.ok (), [.println "No data expected."])
  else if buf.headD 0 = 254 then (.ok (), [.println "Pending"])
  else if buf.headD 0 = 2 then (.ok (), [.println "Error"])
  else if buf.headD 0 = 1 then
    match extractData buf with
    | .ok cps => (.ok (), [.println ("RESPONSE: " ++ natsToString cps)])
    | .error e => (.error e, [])
  else (.ok (), [.println "NO RESPONSE"])

/-- `CommandBuilder::run` for `CommandOptions`, as a pure function of the
transport script: print the command, write with one retry, sleep the
delay, and — when a response is expected — read with one retry and
dispatch on the status byte.  The final `println!()` empty line runs on
every non-error path. -/
def runModel (opts : CommandOptions) (w : ℕ → Bool) (r : ℕ → Option (List ℕ)) :
    Except RunErr Unit × List Ev :=
  let pre := [Ev.println ("COMMAND: " ++ opts.command)]
  match writeStage w with
  | (.error e, t1) => (.error e, pre ++ t1)
  | (.ok _, t1) =>
    let t2 := t1 ++ delayEvents opts.delay
    match opts.response with
    | none => (.ok (), pre ++ t2 ++ [.println ""])
    | some _ =>
      match readStage r with
      | (.error e, t3) => (.error e, pre ++ t2 ++ t3)
      | (.ok buf, t3) =>
        match statusStage buf with
        | (.ok _, t4) => (.ok (), pre ++ t2 ++ t3 ++ t4 ++ [.println ""])
        | (.error e, t4) => (.error e, pre ++ t2 ++ t3 ++ t4)

/-! ## Auxiliary definitions used by the theorems -/

/-- Tokens the first staged match of `OutputStringStatus::parse` accepts. -/
def mem1 (t : String) : Bool :=
  if t = "EC" then true
  else if t = "TDS" then true
  else if t = "S" then true
  else if t = "SG" then true
  else if t = "No output" then true
  else false

/-- Tokens the second staged match accepts. -/
def mem2 (t : String) : Bool :=
  if t = "TDS" then true
  else if t = "S" then true
  else if t = "SG" then true
  else false

/-- Tokens the third staged match accepts. -/
def mem3 (t : String) : Bool :=
  if t = "S" then true
  else if t = "SG" then true
  else false

/-- Tokens the fourth staged match accepts. -/
def mem4 (t : String) : Bool :=
  if t = "SG" then true else false

/-- Positional acceptance pattern of `OutputStringStatus::parse`: each of
the (at most four) tokens must merely lie in the canonical suffix that
starts at its position — canonical order is sufficient but not necessary. -/
def positionalOk : List String → Bool
  | [] => true
  | [t1] => mem1 t1
  | [t1, t2] => mem1 t1 && mem2 t2
  | [t1, t2, t3] => mem1 t1 && mem2 t2 && mem3 t3
  | [t1, t2, t3, t4] => mem1 t1 && mem2 t2 && mem3 t3 && mem4 t4
  | _ => false

/-- The diagnostic line `run` prints for a status byte other than 1. -/
def statusLine (n : ℕ) : String :=
  if n = 255 then "No data expected."
  else if n = 254 then "Pending"
  else if n = 2 then "Error"
  else "NO RESPONSE"

/-- The write attempts recorded in a trace, in order. -/
def writeEvs (t : List Ev) : List Bool :=
  t.filterMap fun e =>
    match e with
    | .write b => some b
    | _ => none

/-- The read attempts recorded in a trace, in order. -/
def readEvs (t : List Ev) : List Bool :=
  t.filterMap fun e =>
    match e with
    | .read b => some b
    | _ => none

/-- Modelled from the spec: payload extraction as claim C8 words it
(spec §4.2 step 5) — bytes 1..first-nul unmodified when a nul exists;
otherwise the remaining bytes with the high bit stripped from each
(after stripping, trivially valid ASCII/UTF-8, so no failure).  This is
the comparison point for the refinement check against `extractData`. -/
def extractDataClaim (buf : List ℕ) : Except RunErr (List ℕ) :=
  match buf.findIdx? (· = 0) with
  | some eol => .ok ((buf.take eol).drop 1)
  | none => .ok ((buf.drop 1).map (fun c => c &&& 127))

deriving instance DecidableEq for Except

/-! ## General-purpose lemmas -/

theorem splitCommaChars_ne_nil (l : List Char) : splitCommaChars l ≠ [] := by
  induction l with
  | nil => simp [splitCommaChars]
  | cons c rest ih =>
    simp only [splitCommaChars]
    split
    · simp
    · split
      · simp
      · simp

theorem splitComma_ne_nil (s : String) : splitComma s ≠ [] := by
  simp [splitComma, splitCommaChars_ne_nil]

theorem char_toNat_ofNat_valid (m : ℕ) (h : m < 55296) : (Char.ofNat m).toNat = m := by
  have hv : m.isValidChar := Or.inl h
  simp only [Char.ofNat, hv, dif_pos, Char.ofNatAux]
  rfl

theorem toUpper_toUpper (c : Char) : c.toUpper.toUpper = c.toUpper := by
  unfold Char.toUpper
  by_cases h : c.toNat ≥ 97 ∧ c.toNat ≤ 122
  · rw [if_pos h]
    have h2 : (Char.ofNat (c.toNat - 32)).toNat = c.toNat - 32 :=
      char_toNat_ofNat_valid _ (by omega)
    rw [h2, if_neg (by omega)]
  · rw [if_neg h, if_neg h]

/-! ## Claim theorems

The concrete `Rat` computations below need the (Batteries-irreducible)
rational arithmetic operations to evaluate, hence the local reducibility
setting for this section.
-/

section ClaimProofs

attribute [local semireducible] Rat.mul Rat.add Rat.sub Rat.inv

/-- C4: `ProbeReading::parse` shapes its result purely by the token count:
`"12.5"` is a one-parameter reading 12.5, `"12.5,0.0"` two-parameter,
`"12.5,0.0,1423,1.004"` four-parameter, and a fifth token is a
`ResponseParse` error; in general 1–4 numeric tokens parse to a reading
of exactly that arity and ≥ 5 tokens are an error. -/
theorem probe_reading_arity :
    (ProbeReading.parse "12.5" = .ok (.OneParameter (.num (25/2)))) ∧
    (ProbeReading.parse "12.5,0.0" = .ok (.TwoParameters (.num (25/2)) (.num 0))) ∧
    (ProbeReading.parse "12.5,0.0,1423,1.004" =
      .ok (.FourParameters (.num (25/2)) (.num 0) (.num 1423) (.num (251/250)))) ∧
    (ProbeReading.parse "12.5,0.0,1423,1.004,9" = .error .responseParse) ∧
    (∀ ts : List String, ts ≠ [] → ts.length ≤ 4 →
      (∀ t ∈ ts, (parseF64 t.data).isSome) →
      ∃ rdg, ProbeReading.parseTokens ts = .ok rdg ∧ rdg.arity = ts.length) ∧
    (∀ ts : List String, 5 ≤ ts.length →
      (∀ t ∈ ts, (parseF64 t.data).isSome) →
      ProbeReading.parseTokens ts = .error .responseParse) := by
  refine ⟨by decide, by decide, by decide, by decide, ?_, ?_⟩
  · intro ts hne hlen hall
    rcases ts with _ | ⟨t1, r1⟩
    · exact absurd rfl hne
    obtain ⟨v1, hv1⟩ := Option.isSome_iff_exists.mp (hall t1 (by simp))
    rcases r1 with _ | ⟨t2, r2⟩
    · exact ⟨.OneParameter v1, by simp [ProbeReading.parseTokens, hv1], rfl⟩
    obtain ⟨v2, hv2⟩ := Option.isSome_iff_exists.mp (hall t2 (by simp))
    rcases r2 with _ | ⟨t3, r3⟩
    · exact ⟨.TwoParameters v1 v2, by simp [ProbeReading.parseTokens, hv1, hv2], rfl⟩
    obtain ⟨v3, hv3⟩ := Option.isSome_iff_exists.mp (hall t3 (by simp))
    rcases r3 with _ | ⟨t4, r4⟩
    · exact ⟨.ThreeParameters v1 v2 v3,
        by simp [ProbeReading.parseTokens, hv1, hv2, hv3], rfl⟩
    obtain ⟨v4, hv4⟩ := Option.isSome_iff_exists.mp (hall t4 (by simp))
    rcases r4 with _ | ⟨t5, r5⟩
    · exact ⟨.FourParameters v1 v2 v3 v4,
        by simp [ProbeReading.parseTokens, hv1, hv2, hv3, hv4], rfl⟩
    · simp only [List.length_cons, List.length_nil] at hlen
      omega
  · intro ts hlen hall
    rcases ts with _ | ⟨t1, _ | ⟨t2, _ | ⟨t3, _ | ⟨t4, _ | ⟨t5, r5⟩⟩⟩⟩⟩ <;>
        simp only [List.length_cons, List.length_nil] at hlen <;> try omega
    obtain ⟨v1, hv1⟩ := Option.isSome_iff_exists.mp (hall t1 (by simp))
    obtain ⟨v2, hv2⟩ := Option.isSome_iff_exists.mp (hall t2 (by simp))
    obtain ⟨v3, hv3⟩ := Option.isSome_iff_exists.mp (hall t3 (by simp))
    obtain ⟨v4, hv4⟩ := Option.isSome_iff_exists.mp (hall t4 (by simp))
    simp [ProbeReading.parseTokens, hv1, hv2, hv3, hv4]

/-- C4 witness: the general arity clause evaluated at three concrete
numeric tokens. -/
theorem probe_reading_arity_w :
    ∃ rdg, ProbeReading.parseTokens ["12.5", "0.0", "1423"] = .ok rdg ∧
      rdg.arity = 3 :=
  probe_reading_arity.2.2.2.2.1 ["12.5", "0.0", "1423"] (by simp) (by simp)
    (by decide)

/-- C9: `ProbeReading::parse` never yields the zero-parameter variant —
for every input it either fails with `ResponseParse` or returns a reading
of arity ≥ 1 (the comma-split always produces a first token, and the
empty input fails the float parse of its empty first token). -/
theorem probe_parse_never_none :
    (∀ s : String, ProbeReading.parse s = .error .responseParse ∨
      ∃ rdg, ProbeReading.parse s = .ok rdg ∧ 1 ≤ rdg.arity) ∧
    ProbeReading.parse "" = .error .responseParse := by
  refine ⟨?_, by decide⟩
  intro s
  unfold ProbeReading.parse
  rcases hsp : splitComma s with _ | ⟨t1, r1⟩
  · exact absurd hsp (splitComma_ne_nil s)
  rcases h1 : parseF64 t1.data with _ | v1
  · exact Or.inl (by simp [ProbeReading.parseTokens, h1])
  rcases r1 with _ | ⟨t2, r2⟩
  · exact Or.inr ⟨.OneParameter v1, by simp [ProbeReading.parseTokens, h1],
      by simp [ProbeReading.arity]⟩
  rcases h2 : parseF64 t2.data with _ | v2
  · exact Or.inl (by simp [ProbeReading.parseTokens, h1, h2])
  rcases r2 with _ | ⟨t3, r3⟩
  · exact Or.inr ⟨.TwoParameters v1 v2,
      by simp [ProbeReading.parseTokens, h1, h2], by simp [ProbeReading.arity]⟩
  rcases h3 : parseF64 t3.data with _ | v3
  · exact Or.inl (by simp [ProbeReading.parseTokens, h1, h2, h3])
  rcases r3 with _ | ⟨t4, r4⟩
  · exact Or.inr ⟨.ThreeParameters v1 v2 v3,
      by simp [ProbeReading.parseTokens, h1, h2, h3], by simp [ProbeReading.arity]⟩
  rcases h4 : parseF64 t4.data with _ | v4
  · exact Or.inl (by simp [ProbeReading.parseTokens, h1, h2, h3, h4])
  rcases r4 with _ | ⟨t5, r5⟩
  · exact Or.inr ⟨.FourParameters v1 v2 v3 v4,
      by simp [ProbeReading.parseTokens, h1, h2, h3, h4], by simp [ProbeReading.arity]⟩
  · exact Or.inl (by simp [ProbeReading.parseTokens, h1, h2, h3, h4])

theorem stage1_isSome (o : OutputStringStatus) (t : String) :
    (OutputStringStatus.stage1 o t).isSome = mem1 t := by
  unfold OutputStringStatus.stage1 mem1
  split_ifs <;> rfl

theorem stage2_isSome (o : OutputStringStatus) (t : String) :
    (OutputStringStatus.stage2 o t).isSome = mem2 t := by
  unfold OutputStringStatus.stage2 mem2
  split_ifs <;> rfl

theorem stage3_isSome (o : OutputStringStatus) (t : String) :
    (OutputStringStatus.stage3 o t).isSome = mem3 t := by
  unfold OutputStringStatus.stage3 mem3
  split_ifs <;> rfl

theorem stage4_isSome (o : OutputStringStatus) (t : String) :
    (OutputStringStatus.stage4 o t).isSome = mem4 t := by
  unfold OutputStringStatus.stage4 mem4
  split_ifs <;> rfl

/-- C2 counterexample: the out-of-order response `?O,SG,S` is accepted by
`OutputStringStatus::parse` (salinity and specific gravity on), not
rejected with a `ResponseParse` error as the claim states. -/
theorem output_parse_out_of_order_accepted :
    OutputStringStatus.parse "?O,SG,S" = .ok ⟨.off, .off, .on, .on⟩ := by decide

/-- C2 amended: acceptance is positional, not strictly canonical — token
i (of at most four) must lie in the canonical suffix starting at
position i (first: EC/TDS/S/SG/`No output`; second: TDS/S/SG; third:
S/SG; fourth: SG).  Canonical-order subsets are accepted and unknown
tokens rejected, but duplicates and out-of-order lists that fit the
positional pattern (such as `?O,SG,S`) are accepted too.  The `?O,`
marker is still mandatory. -/
theorem output_parse_positional :
    (∀ ts : List String,
      (∃ o, OutputStringStatus.parseTokens ts = .ok o) ↔ positionalOk ts = true) ∧
    (∀ s o, OutputStringStatus.parse s = .ok o →
      "?O,".data.isPrefixOf s.data = true) := by
  constructor
  · intro ts
    rcases ts with _ | ⟨t1, r1⟩
    · simp [OutputStringStatus.parseTokens, positionalOk]
    rcases h1 : OutputStringStatus.stage1 OutputStringStatus.new t1 with _ | o1 <;>
      have m1 := stage1_isSome OutputStringStatus.new t1 <;> rw [h1] at m1
    · simp [OutputStringStatus.parseTokens, h1, positionalOk, ← m1]
      rcases r1 with _ | ⟨t2, _ | ⟨t3, _ | ⟨t4, _ | _⟩⟩⟩ <;> simp [positionalOk, ← m1]
    rcases r1 with _ | ⟨t2, r2⟩
    · simp [OutputStringStatus.parseTokens, h1, positionalOk, ← m1]
    rcases h2 : OutputStringStatus.stage2 o1 t2 with _ | o2 <;>
      have m2 := stage2_isSome o1 t2 <;> rw [h2] at m2
    · simp [OutputStringStatus.parseTokens, h1, h2, positionalOk, ← m2]
      rcases r2 with _ | ⟨t3, _ | ⟨t4, _ | _⟩⟩ <;> simp [positionalOk, ← m2]
    rcases r2 with _ | ⟨t3, r3⟩
    · simp [OutputStringStatus.parseTokens, h1, h2, positionalOk, ← m1, ← m2]
    rcases h3 : OutputStringStatus.stage3 o2 t3 with _ | o3 <;>
      have m3 := stage3_isSome o2 t3 <;> rw [h3] at m3
    · simp [OutputStringStatus.parseTokens, h1, h2, h3, positionalOk, ← m3]
      rcases r3 with _ | ⟨t4, _ | _⟩ <;> simp [positionalOk, ← m3]
    rcases r3 with _ | ⟨t4, r4⟩
    · simp [OutputStringStatus.parseTokens, h1, h2, h3, positionalOk, ← m1, ← m2, ← m3]
    rcases h4 : OutputStringStatus.stage4 o3 t4 with _ | o4 <;>
      have m4 := stage4_isSome o3 t4 <;> rw [h4] at m4
    · simp [OutputStringStatus.parseTokens, h1, h2, h3, h4, positionalOk, ← m4]
      rcases r4 with _ | _ <;> simp [positionalOk, ← m4]
    rcases r4 with _ | ⟨t5, r5⟩
    · simp [OutputStringStatus.parseTokens, h1, h2, h3, h4, positionalOk,
        ← m1, ← m2, ← m3, ← m4]
    · simp [OutputStringStatus.parseTokens, h1, h2, h3, h4, positionalOk]
  · intro s o h
    unfold OutputStringStatus.parse at h
    by_cases hp : "?O,".data.isPrefixOf s.data = true
    · exact hp
    · simp [hp] at h

/-- C2 witness: the positional characterization evaluated at the concrete
token list of the out-of-order response, and the marker requirement
evaluated at a concrete accepted response. -/
theorem output_parse_positional_w :
    ((∃ o, OutputStringStatus.parseTokens ["SG", "S"] = .ok o) ↔
      positionalOk ["SG", "S"] = true) ∧
    "?O,".data.isPrefixOf ("?O,EC" : String).data = true :=
  ⟨output_parse_positional.1 ["SG", "S"],
   output_parse_positional.2 "?O,EC" ⟨.on, .off, .off, .off⟩ (by decide)⟩

/-- C3 counterexample: `to_string` emits no `?O,` marker, so the literal
composition `parse(to_string(subset))` fails — here on the full subset,
whose rendering `EC,TDS,S,SG` is rejected. -/
theorem round_trip_without_marker_fails :
    OutputStringStatus.parse
      (OutputStringStatus.to_string ⟨.on, .on, .on, .on⟩) =
      .error .responseParse := by decide

/-- C3 amended: with the `?O,` marker restored in front of the rendered
string, the round trip holds for every one of the 16 subsets. -/
theorem round_trip_with_marker :
    ∀ o : OutputStringStatus,
      OutputStringStatus.parse ("?O," ++ OutputStringStatus.to_string o) = .ok o := by
  intro o
  rcases o with ⟨ec, tds, sal, sg⟩
  cases ec <;> cases tds <;> cases sal <;> cases sg <;> decide

theorem splitComma_mk (l : List Char) :
    splitComma (String.mk l) = (splitCommaChars l).map String.mk := rfl

theorem toUpper_eq_comma (c : Char) : c.toUpper = ',' → c = ',' := by
  unfold Char.toUpper
  by_cases h : c.toNat ≥ 97 ∧ c.toNat ≤ 122
  · rw [if_pos h]
    intro hcm
    have h2 : (Char.ofNat (c.toNat - 32)).toNat = c.toNat - 32 :=
      char_toNat_ofNat_valid _ (by omega)
    have h3 : (Char.ofNat (c.toNat - 32)).toNat = (',' : Char).toNat := by rw [hcm]
    rw [h2] at h3
    have : (',' : Char).toNat = 44 := by decide
    omega
  · rw [if_neg h]
    exact id

theorem splitCommaChars_map_toUpper (l : List Char) :
    splitCommaChars (l.map Char.toUpper) =
      (splitCommaChars l).map (List.map Char.toUpper) := by
  induction l with
  | nil => rfl
  | cons c rest ih =>
    simp only [List.map_cons, splitCommaChars]
    by_cases hc : c = ','
    · subst hc
      have hu : (',' : Char).toUpper = ',' := by decide
      rw [if_pos hu, if_pos rfl]
      simp [ih]
    · have hc2 : ¬(c.toUpper = ',') := fun h => hc (toUpper_eq_comma c h)
      rw [if_neg hc2, if_neg hc]
      rcases hrest : splitCommaChars rest with _ | ⟨t, ts⟩
      · exact absurd hrest (splitCommaChars_ne_nil rest)
      · rw [ih, hrest]
        simp

theorem map_toUpper_idem (l : List Char) :
    (l.map Char.toUpper).map Char.toUpper = l.map Char.toUpper := by
  induction l with
  | nil => rfl
  | cons c rest ih => simp [ih, toUpper_toUpper]

/-- Dissection of a successful `Import::from_str`: the stored value is the
first comma token of the uppercased remainder, so it satisfies the length
guard and is an uppercase image. -/
theorem import_from_str_ok_elim (s : String) (c : Import)
    (h : Import.from_str s = .ok c) :
    (0 < c.value.utf8ByteSize ∧ c.value.utf8ByteSize < 13) ∧
      ∃ t0 : List Char, c.value = String.mk (t0.map Char.toUpper) := by
  unfold Import.from_str at h
  by_cases hp : "IMPORT,".data.isPrefixOf (toUpper s).data = true
  · rw [if_pos hp] at h
    have hdata : (toUpper s).data.drop 7 = (s.data.drop 7).map Char.toUpper := by
      simp [toUpper]
    have hsplit : splitComma (String.mk ((toUpper s).data.drop 7)) =
        ((splitCommaChars (s.data.drop 7)).map (List.map Char.toUpper)).map
          String.mk := by
      rw [hdata, splitComma_mk, splitCommaChars_map_toUpper]
    rw [hsplit] at h
    rcases hsc : splitCommaChars (s.data.drop 7) with _ | ⟨t0, ts0⟩
    · exact absurd hsc (splitCommaChars_ne_nil _)
    rw [hsc] at h
    simp only [List.map_cons] at h
    by_cases hg : 0 < (String.mk (t0.map Char.toUpper)).utf8ByteSize ∧
        (String.mk (t0.map Char.toUpper)).utf8ByteSize < 13
    · rw [if_pos hg] at h
      rcases hts : ts0.map (List.map Char.toUpper) |>.map String.mk with _ | _
      · rw [hts] at h
        cases h
        exact ⟨hg, t0, rfl⟩
      · rw [hts] at h
        cases h
    · rw [if_neg hg] at h
      cases h
  · rw [if_neg hp] at h
    cases h

/-- C5: the numeric parameter fields of the textual command parsers go
through `.unwrap()`, so a non-numeric field (`CAL,abc`, `T,abc`) or an
out-of-u16-range address (`I2C,70000`) PANICS instead of returning the
`CommandParse` error the claim describes; the canonical numeric forms do
parse. -/
theorem numeric_field_unwrap_panics :
    CalibrationOnePoint.from_str "CAL,abc" = .panicked ∧
    DeviceAddress.from_str "I2C,70000" = .panicked ∧
    TemperatureCompensation.from_str "T,abc" = .panicked ∧
    CalibrationOnePoint.from_str "Cal,11.43" = .ok ⟨.num (1143/100)⟩ ∧
    DeviceAddress.from_str "i2c,123" = .ok ⟨123⟩ := by
  exact ⟨by decide, by decide, by decide, by decide, by decide⟩

/-- C6 counterexample: `Import` is a plain public tuple struct, so an
`Import` value carrying a 15-character string is freely constructible and
serializes (mirroring the repository's own `build_command_import` test) —
construction rejects nothing. -/
theorem import_unvalidated_construction :
    ∃ c : Import, 12 < c.value.length ∧
      c.get_command_string = "IMPORT,ABCDEFGHIJKLMNO" :=
  ⟨⟨"ABCDEFGHIJKLMNO"⟩, by decide, by decide⟩

/-- C6 amended: the 1–12-character restriction is enforced only by the
textual `FromStr` parser, which rejects an empty or 13-character payload
with `CommandParse` and accepts 1–12 characters; every successfully
parsed `Import` satisfies the bound. -/
theorem import_from_str_length_guard :
    (∀ s c, Import.from_str s = .ok c →
      0 < c.value.utf8ByteSize ∧ c.value.utf8ByteSize < 13) ∧
    Import.from_str "IMPORT," = .err .commandParse ∧
    Import.from_str "IMPORT,ABCDEFGHIJKLM" = .err .commandParse ∧
    Import.from_str "IMPORT,ABCDEFGHIJKL" = .ok ⟨"ABCDEFGHIJKL"⟩ := by
  exact ⟨fun s c h => (import_from_str_ok_elim s c h).1, by decide, by decide,
    by decide⟩

/-- C6 witness: the length bound evaluated on a concrete parsed command. -/
theorem import_from_str_length_guard_w :
    0 < (Import.mk "A").value.utf8ByteSize ∧
      (Import.mk "A").value.utf8ByteSize < 13 :=
  import_from_str_length_guard.1 "IMPORT,A" ⟨"A"⟩ (by decide)

/-- C10: `Import`'s textual parser uppercases the whole input before
matching, so the payload is case-normalized: `import,abcdef` parses to
`Import("ABCDEF")` (not `Import("abcdef")`), and every parsed payload is
a fixed point of uppercasing. -/
theorem import_payload_uppercased :
    Import.from_str "import,abcdef" = .ok ⟨"ABCDEF"⟩ ∧
    (Import.mk "ABCDEF" ≠ Import.mk "abcdef") ∧
    (∀ s c, Import.from_str s = .ok c → toUpper c.value = c.value) := by
  refine ⟨by decide, by decide, ?_⟩
  intro s c h
  obtain ⟨t0, ht0⟩ := (import_from_str_ok_elim s c h).2
  rw [ht0]
  exact congrArg String.mk (map_toUpper_idem t0)

/-- C10 witness: the fixed-point clause evaluated at the parse of
`import,abcdef`. -/
theorem import_payload_uppercased_w :
    toUpper (Import.mk "ABCDEF").value = (Import.mk "ABCDEF").value :=
  import_payload_uppercased.2.2 "import,abcdef" ⟨"ABCDEF"⟩ (by decide)

theorem writeEvs_append (a b : List Ev) :
    writeEvs (a ++ b) = writeEvs a ++ writeEvs b := by
  simp [writeEvs, List.filterMap_append]

theorem readEvs_append (a b : List Ev) :
    readEvs (a ++ b) = readEvs a ++ readEvs b := by
  simp [readEvs, List.filterMap_append]

theorem statusStage_no_io (buf : List ℕ) :
    writeEvs (statusStage buf).2 = [] ∧ readEvs (statusStage buf).2 = [] := by
  unfold statusStage
  split_ifs <;> try simp [writeEvs, readEvs]
  rcases extractData buf with e | cps <;> simp [writeEvs, readEvs]

theorem delayEvents_no_io (d : Option ℕ) :
    writeEvs (delayEvents d) = [] ∧ readEvs (delayEvents d) = [] := by
  cases d <;> simp [delayEvents, writeEvs, readEvs]

/-- C1 counterexample: on a response buffer whose status byte is 255 the
executor returns `Ok(())` — no `NoDataExpectedResponse` (or any other)
error is produced, contradicting the claimed status-byte-to-error
mapping. -/
theorem run_status255_returns_ok :
    (runModel calibrationStateOptions (fun _ => true)
        (fun _ => some (255 :: List.replicate 398 0))).1 = .ok () := by
  rfl

/-- C1 amended: the executor distinguishes the status byte only in the
console line it prints (255 → `No data expected.`, 254 → `Pending`,
2 → `Error`, any other non-1 value → `NO RESPONSE`) and completes with
`Ok` in all of those cases; only status 1 proceeds to payload
extraction, whose failure is the sole error outcome of the dispatch. -/
theorem run_nonsuccess_status_prints_only :
    ∀ (opts : CommandOptions) (resp : CommandResponse) (w : ℕ → Bool)
      (r : ℕ → Option (List ℕ)) (buf : List ℕ),
      opts.response = some resp → w 0 = true → r 0 = some buf →
      ((buf.headD 0 ≠ 1 → (runModel opts w r).1 = .ok () ∧
        Ev.println (statusLine (buf.headD 0)) ∈ (runModel opts w r).2) ∧
       (buf.headD 0 = 1 →
        (runModel opts w r).1 =
          (match extractData buf with
           | .ok _ => Except.ok ()
           | .error e => Except.error e))) := by
  intro opts resp w r buf hresp hw hr
  have hws : writeStage w = (.ok (), [.write true]) := by simp [writeStage, hw]
  have hrs : readStage r = (.ok buf, [.read true]) := by simp [readStage, hr]
  constructor
  · intro hne1
    have hst : statusStage buf = (.ok (), [Ev.println (statusLine (buf.headD 0))]) := by
      unfold statusStage statusLine
      split_ifs <;> simp_all
    simp [runModel, hws, hresp, hrs, hst]
  · intro h1
    have hst : statusStage buf =
        (match extractData buf with
         | .ok cps => (Except.ok (), [Ev.println ("RESPONSE: " ++ natsToString cps)])
         | .error e => (Except.error e, [])) := by
      unfold statusStage
      rw [if_neg (by rw [h1]; decide), if_neg (by rw [h1]; decide),
        if_neg (by rw [h1]; decide), if_pos h1]
    rcases he : extractData buf with e | cps <;>
      rw [he] at hst <;>
      simp [runModel, hws, hresp, hrs, hst]

/-- C1 witness: with a transport answering status byte 254 the command
completes with `Ok` and merely prints `Pending`. -/
theorem run_nonsuccess_status_prints_only_w :
    (runModel calibrationStateOptions (fun _ => true)
        (fun _ => some (254 :: List.replicate 398 0))).1 = .ok () ∧
      Ev.println "Pending" ∈
        (runModel calibrationStateOptions (fun _ => true)
          (fun _ => some (254 :: List.replicate 398 0))).2 := by
  have h := run_nonsuccess_status_prints_only calibrationStateOptions
    .CalibrationState (fun _ => true) (fun _ => some (254 :: List.replicate 398 0))
    (254 :: List.replicate 398 0) rfl rfl rfl
  have h2 := h.1 (by decide)
  have h3 := h2.2
  rw [show ((254 : ℕ) :: List.replicate 398 0).headD 0 = 254 from rfl,
    show statusLine 254 = "Pending" from rfl] at h3
  exact ⟨h2.1, h3⟩

theorem writeEvs_nil : writeEvs [] = [] := rfl

theorem writeEvs_println (s : String) (t : List Ev) :
    writeEvs (Ev.println s :: t) = writeEvs t := rfl

theorem writeEvs_sleep (n : ℕ) (t : List Ev) :
    writeEvs (Ev.sleepMs n :: t) = writeEvs t := rfl

theorem writeEvs_read (b : Bool) (t : List Ev) :
    writeEvs (Ev.read b :: t) = writeEvs t := rfl

theorem writeEvs_write (b : Bool) (t : List Ev) :
    writeEvs (Ev.write b :: t) = b :: writeEvs t := rfl

theorem readEvs_nil : readEvs [] = [] := rfl

theorem readEvs_println (s : String) (t : List Ev) :
    readEvs (Ev.println s :: t) = readEvs t := rfl

theorem readEvs_sleep (n : ℕ) (t : List Ev) :
    readEvs (Ev.sleepMs n :: t) = readEvs t := rfl

theorem readEvs_write (b : Bool) (t : List Ev) :
    readEvs (Ev.write b :: t) = readEvs t := rfl

theorem readEvs_read (b : Bool) (t : List Ev) :
    readEvs (Ev.read b :: t) = b :: readEvs t := rfl

theorem readStage_no_write (r : ℕ → Option (List ℕ)) :
    writeEvs (readStage r).2 = [] := by
  unfold readStage
  rcases r 0 with _ | buf
  · rcases r 1 with _ | buf <;> simp [writeEvs]
  · simp [writeEvs]

theorem writeStage_no_read (w : ℕ → Bool) :
    readEvs (writeStage w).2 = [] := by
  unfold writeStage
  split_ifs <;> simp [readEvs]

theorem runModel_writeEvs (opts : CommandOptions) (w : ℕ → Bool)
    (r : ℕ → Option (List ℕ)) :
    writeEvs (runModel opts w r).2 = writeEvs (writeStage w).2 := by
  unfold runModel
  rcases hws : writeStage w with ⟨wres, t1⟩
  rcases wres with e | u
  · simp [writeEvs_append, writeEvs_println, writeEvs_nil, writeEvs_write,
      writeEvs_sleep, writeEvs_read]
  · rcases hresp : opts.response with _ | resp
    · simp [writeEvs_append, writeEvs_println, writeEvs_nil, writeEvs_write,
        writeEvs_sleep, writeEvs_read, (delayEvents_no_io opts.delay).1]
    · rcases hrs : readStage r with ⟨rres, t3⟩
      have hnw : writeEvs t3 = [] := by
        have := readStage_no_write r
        rw [hrs] at this
        exact this
      rcases rres with e | buf
      · simp [hrs, writeEvs_append, writeEvs_println, writeEvs_nil,
          writeEvs_write, writeEvs_sleep, writeEvs_read,
          (delayEvents_no_io opts.delay).1, hnw]
      · rcases hss : statusStage buf with ⟨sres, t4⟩
        have hnw4 : writeEvs t4 = [] := by
          have := (statusStage_no_io buf).1
          rw [hss] at this
          exact this
        rcases sres with e | u2 <;>
          simp [hss, writeEvs_append, writeEvs_println, writeEvs_nil,
            writeEvs_write, writeEvs_sleep, writeEvs_read,
            (delayEvents_no_io opts.delay).1, hnw, hnw4]

theorem runModel_readEvs (opts : CommandOptions) (w : ℕ → Bool)
    (r : ℕ → Option (List ℕ)) (resp : CommandResponse)
    (hresp : opts.response = some resp) (hok : (writeStage w).1 = .ok ()) :
    readEvs (runModel opts w r).2 = readEvs (readStage r).2 := by
  unfold runModel
  rcases hws : writeStage w with ⟨wres, t1⟩
  rw [hws] at hok
  simp only at hok
  subst hok
  have hnr : readEvs t1 = [] := by
    have := writeStage_no_read w
    rw [hws] at this
    exact this
  rcases hrs : readStage r with ⟨rres, t3⟩
  rcases rres with e | buf
  · simp [hresp, hrs, readEvs_append, readEvs_println, readEvs_nil,
      readEvs_write, readEvs_sleep, readEvs_read,
      (delayEvents_no_io opts.delay).2, hnr]
  · rcases hss : statusStage buf with ⟨sres, t4⟩
    have hnr4 : readEvs t4 = [] := by
      have := (statusStage_no_io buf).2
      rw [hss] at this
      exact this
    rcases sres with e | u2 <;>
      simp [hresp, hss, readEvs_append, readEvs_println, readEvs_nil,
        readEvs_write, readEvs_sleep, readEvs_read,
        (delayEvents_no_io opts.delay).2, hnr, hnr4]

theorem runModel_shape (opts : CommandOptions) (w : ℕ → Bool)
    (r : ℕ → Option (List ℕ)) :
    ∃ rest, (runModel opts w r).2 =
      Ev.println ("COMMAND: " ++ opts.command) :: ((writeStage w).2 ++ rest) := by
  unfold runModel
  rcases hws : writeStage w with ⟨wres, t1⟩
  rcases wres with e | u
  · exact ⟨[], by simp⟩
  · rcases hresp : opts.response with _ | resp
    · exact ⟨delayEvents opts.delay ++ [Ev.println ""], by simp⟩
    · rcases hrs : readStage r with ⟨rres, t3⟩
      rcases rres with e | buf
      · exact ⟨delayEvents opts.delay ++ t3, by simp [hrs]⟩
      · rcases hss : statusStage buf with ⟨sres, t4⟩
        rcases sres with e | u2
        · exact ⟨delayEvents opts.delay ++ t3 ++ t4, by simp [hss]⟩
        · exact ⟨delayEvents opts.delay ++ t3 ++ t4 ++ [Ev.println ""], by simp [hss]⟩

theorem runModel_read_shape (opts : CommandOptions) (w : ℕ → Bool)
    (r : ℕ → Option (List ℕ)) (resp : CommandResponse)
    (hresp : opts.response = some resp) (hok : (writeStage w).1 = .ok ()) :
    ∃ a b, (runModel opts w r).2 = a ++ (readStage r).2 ++ b := by
  unfold runModel
  rcases hws : writeStage w with ⟨wres, t1⟩
  rw [hws] at hok
  simp only at hok
  subst hok
  rcases hrs : readStage r with ⟨rres, t3⟩
  rcases rres with e | buf
  · exact ⟨Ev.println ("COMMAND: " ++ opts.command) ::
      (t1 ++ delayEvents opts.delay), [], by simp [hresp, hrs]⟩
  · rcases hss : statusStage buf with ⟨sres, t4⟩
    rcases sres with e | u2
    · exact ⟨Ev.println ("COMMAND: " ++ opts.command) ::
        (t1 ++ delayEvents opts.delay), t4, by simp [hresp, hrs, hss]⟩
    · exact ⟨Ev.println ("COMMAND: " ++ opts.command) ::
        (t1 ++ delayEvents opts.delay), t4 ++ [Ev.println ""], by simp [hresp, hrs, hss]⟩

theorem runModel_read_twice_failed (opts : CommandOptions) (w : ℕ → Bool)
    (r : ℕ → Option (List ℕ)) (resp : CommandResponse)
    (hresp : opts.response = some resp) (hok : (writeStage w).1 = .ok ())
    (h0 : r 0 = none) (h1 : r 1 = none) :
    (runModel opts w r).1 = .error .errorReading := by
  unfold runModel
  rcases hws : writeStage w with ⟨wres, t1⟩
  rw [hws] at hok
  simp only at hok
  subst hok
  simp [hresp, readStage, h0, h1]

/-- C7: the executor's retry policy — a successful first write is the only
write; a failed first write is followed by a 300 ms sleep and exactly one
more attempt; two failures abort with the fatal write error and nothing
further happens; and (when a response is expected and the write phase
succeeded) the identical single-retry/300 ms policy governs the read. -/
theorem run_single_retry_policy :
    ∀ (opts : CommandOptions) (w : ℕ → Bool) (r : ℕ → Option (List ℕ)),
      (w 0 = true → writeEvs (runModel opts w r).2 = [true]) ∧
      (w 0 = false → w 1 = true →
        writeEvs (runModel opts w r).2 = [false, true] ∧
        ∃ t, (runModel opts w r).2 =
          Ev.println ("COMMAND: " ++ opts.command) :: Ev.write false ::
            Ev.sleepMs 300 :: Ev.write true :: t) ∧
      (w 0 = false → w 1 = false →
        (runModel opts w r).1 = .error .commandNotSent ∧
        (runModel opts w r).2 =
          [Ev.println ("COMMAND: " ++ opts.command), Ev.write false,
            Ev.sleepMs 300, Ev.write false]) ∧
      (∀ resp, opts.response = some resp → (w 0 = true ∨ w 1 = true) →
        (∀ buf, r 0 = some buf → readEvs (runModel opts w r).2 = [true]) ∧
        (∀ buf, r 0 = none → r 1 = some buf →
          readEvs (runModel opts w r).2 = [false, true] ∧
          ∃ a b, (runModel opts w r).2 =
            a ++ [Ev.read false, Ev.sleepMs 300, Ev.read true] ++ b) ∧
        (r 0 = none → r 1 = none →
          (runModel opts w r).1 = .error .errorReading ∧
          readEvs (runModel opts w r).2 = [false, false])) := by
  intro opts w r
  refine ⟨?_, ?_, ?_, ?_⟩
  · intro hw0
    rw [runModel_writeEvs]
    simp [writeStage, hw0, writeEvs]
  · intro hw0 hw1
    constructor
    · rw [runModel_writeEvs]
      simp [writeStage, hw0, hw1, writeEvs]
    · obtain ⟨rest, hrest⟩ := runModel_shape opts w r
      refine ⟨rest, ?_⟩
      rw [hrest]
      simp [writeStage, hw0, hw1]
  · intro hw0 hw1
    constructor
    · simp [runModel, writeStage, hw0, hw1]
    · simp [runModel, writeStage, hw0, hw1]
  · intro resp hresp hwok
    have hok : (writeStage w).1 = .ok () := by
      rcases hwok with h | h
      · simp [writeStage, h]
      · rcases hb : w 0 with _ | _ <;> simp [writeStage, h, hb]
    refine ⟨?_, ?_, ?_⟩
    · intro buf hr0
      rw [runModel_readEvs opts w r resp hresp hok]
      simp [readStage, hr0, readEvs]
    · intro buf hr0 hr1
      constructor
      · rw [runModel_readEvs opts w r resp hresp hok]
        simp [readStage, hr0, hr1, readEvs]
      · obtain ⟨a, b, hab⟩ := runModel_read_shape opts w r resp hresp hok
        refine ⟨a, b, ?_⟩
        rw [hab]
        simp [readStage, hr0, hr1]
    · intro hr0 hr1
      refine ⟨runModel_read_twice_failed opts w r resp hresp hok hr0 hr1, ?_⟩
      rw [runModel_readEvs opts w r resp hresp hok]
      simp [readStage, hr0, hr1, readEvs]

/-- C7 witness: a transport whose first write fails and whose reads all
fail — the command aborts with the read error after exactly two read
attempts. -/
theorem run_single_retry_policy_w :
    (runModel calibrationStateOptions (fun i => i = 1) (fun _ => none)).1 =
      .error .errorReading ∧
    readEvs (runModel calibrationStateOptions (fun i => i = 1)
      (fun _ => none)).2 = [false, false] :=
  ((run_single_retry_policy calibrationStateOptions (fun i => i = 1)
    (fun _ => none)).2.2.2 .CalibrationState rfl (Or.inr (by decide))).2.2 rfl rfl

set_option maxRecDepth 4000

/-- C8 counterexample: the high-bit stripping belongs to the nul-found
branch, not the no-nul branch — on a nul-free buffer holding byte 0xC8
the executor FAILS (`from_utf8` on the unstripped bytes), while the
claim's reading would strip and succeed; and in the nul-found branch the
byte 0xC8 IS stripped to `H`, while the claim's reading keeps it
unmodified. -/
theorem payload_stripping_branch_swapped :
    extractData (1 :: 200 :: List.replicate 397 65) = .error .dataNotReadable ∧
    extractDataClaim (1 :: 200 :: List.replicate 397 65) =
      .ok (72 :: List.replicate 397 65) ∧
    extractData (1 :: 200 :: 0 :: List.replicate 396 0) = .ok [72] ∧
    extractDataClaim (1 :: 200 :: 0 :: List.replicate 396 0) = .ok [200] ∧
    (runModel calibrationStateOptions (fun _ => true)
      (fun _ => some (1 :: 200 :: List.replicate 397 65))).1 =
      .error .dataNotReadable := by
  refine ⟨?_, ?_, ?_, ?_, ?_⟩ <;> rfl

/-- C8 amended: on status byte 1 the payload is bytes 1..first-nul with
the high bit stripped from each byte (printed as the RESPONSE line); when
no nul exists anywhere in the buffer, bytes 1..end are decoded as UTF-8
unchanged, succeeding exactly when they are valid UTF-8 and otherwise
failing with the data-not-readable error. -/
theorem run_status1_payload :
    ∀ (opts : CommandOptions) (resp : CommandResponse) (w : ℕ → Bool)
      (r : ℕ → Option (List ℕ)) (buf : List ℕ),
      opts.response = some resp → w 0 = true → r 0 = some buf →
      buf.headD 0 = 1 →
      ((∀ eol, buf.findIdx? (· = 0) = some eol →
        (runModel opts w r).1 = .ok () ∧
        Ev.println ("RESPONSE: " ++
          natsToString (((buf.take eol).drop 1).map (fun c => c &&& 127))) ∈
          (runModel opts w r).2) ∧
       (buf.findIdx? (· = 0) = none →
        ((∀ cps, utf8Decode (buf.drop 1) = some cps →
           (runModel opts w r).1 = .ok ()) ∧
         (utf8Decode (buf.drop 1) = none →
           (runModel opts w r).1 = .error .dataNotReadable)))) := by
  intro opts resp w r buf hresp hw hr h1
  have hws : writeStage w = (.ok (), [.write true]) := by simp [writeStage, hw]
  have hrs : readStage r = (.ok buf, [.read true]) := by simp [readStage, hr]
  constructor
  · intro eol heol
    have hex : extractData buf =
        .ok (((buf.take eol).drop 1).map (fun c => c &&& 127)) := by
      unfold extractData
      rw [heol]
    have hst : statusStage buf = (.ok (), [Ev.println ("RESPONSE: " ++
        natsToString (((buf.take eol).drop 1).map (fun c => c &&& 127)))]) := by
      unfold statusStage
      rw [if_neg (by rw [h1]; decide), if_neg (by rw [h1]; decide),
        if_neg (by rw [h1]; decide), if_pos h1, hex]
    simp [runModel, hws, hresp, hrs, hst]
  · intro hnone
    constructor
    · intro cps hcps
      have hex : extractData buf = .ok cps := by
        unfold extractData
        rw [hnone, hcps]
      have hst : statusStage buf =
          (.ok (), [Ev.println ("RESPONSE: " ++ natsToString cps)]) := by
        unfold statusStage
        rw [if_neg (by rw [h1]; decide), if_neg (by rw [h1]; decide),
          if_neg (by rw [h1]; decide), if_pos h1, hex]
      simp [runModel, hws, hresp, hrs, hst]
    · intro hcps
      have hex : extractData buf = .error .dataNotReadable := by
        unfold extractData
        rw [hnone, hcps]
      have hst : statusStage buf = (.error .dataNotReadable, []) := by
        unfold statusStage
        rw [if_neg (by rw [h1]; decide), if_neg (by rw [h1]; decide),
          if_neg (by rw [h1]; decide), if_pos h1, hex]
      simp [runModel, hws, hresp, hrs, hst]

/-- C8 witness: a buffer `[1, 72, 0, …]` — nul at index 2 — yields `Ok`
and prints the stripped one-byte payload `H`. -/
theorem run_status1_payload_w :
    (runModel calibrationStateOptions (fun _ => true)
      (fun _ => some (1 :: 72 :: 0 :: List.replicate 396 0))).1 = .ok () ∧
    Ev.println "RESPONSE: H" ∈
      (runModel calibrationStateOptions (fun _ => true)
        (fun _ => some (1 :: 72 :: 0 :: List.replicate 396 0))).2 := by
  have h := (run_status1_payload calibrationStateOptions .CalibrationState
    (fun _ => true) (fun _ => some (1 :: 72 :: 0 :: List.replicate 396 0))
    (1 :: 72 :: 0 :: List.replicate 396 0) rfl rfl rfl rfl).1 2 rfl
  have h2 := h.2
  rw [show natsToString ((((1 :: 72 :: 0 :: List.replicate 396 0).take 2).drop
      1).map (fun c => c &&& 127)) = "H" from rfl] at h2
  exact ⟨h.1, h2⟩

end ClaimProofs

end EzoEc
